import Mathlib

/-!
Verification development for the ephemeral-envs autodiscovery service.

The Go source is shallowly embedded:
* machine time (`time.Time` / `time.Duration`) is modeled as `Int`
  (the Go zero time is `0`);
* Prometheus sample values (`float64`) are modeled as `ℚ`; none of the
  verified properties depend on floating-point rounding;
* Go maps are modeled as association lists with overwrite-on-insert;
* fallible Go functions returning `(T, error)` are modeled as `Except`
  (or as a `_ × Option Err` pair where the mutated state matters on the
  error path);
* Go error wrapping via `fmt.Errorf("...: %w", err)` is modeled by the
  `PromErr.wrapped` constructor, and `errors.Is` by `PromErr.is`.
-/

namespace EphemeralEnvs

/-- Machine time; the Go zero `time.Time` is `0`. -/
abbrev Time := Int

/-! ## Association lists (Go maps) -/

/-- Lookup in an association list; models `m[k]` with the `ok` flag. -/
def lookupA {α : Type _} : List (String × α) → String → Option α
  | [], _ => none
  | (k, v) :: rest, key => if k = key then some v else lookupA rest key

/-- Removal; models `delete(m, k)`. -/
def removeA {α : Type _} (l : List (String × α)) (key : String) : List (String × α) :=
  l.filter (fun p => p.1 ≠ key)

/-- Overwriting insertion; models `m[k] = v`. -/
def insertA {α : Type _} (l : List (String × α)) (key : String) (v : α) : List (String × α) :=
  removeA l key ++ [(key, v)]

/-! ## Prometheus model (`internal/prometheus`) -/

/-- A Prometheus sample (`model.Sample`): metric labels, numeric value,
timestamp. -/
structure Sample where
  metric : List (String × String)
  value : ℚ
  timestamp : Time
deriving DecidableEq

/-- `model.ZeroSample`. -/
def zeroSample : Sample := ⟨[], 0, 0⟩

/-- Errors of the Prometheus layer. `wrapped msg inner` models
`fmt.Errorf("msg: %w", inner)`. `upstream` models an I/O error returned by
the backend client. -/
inductive PromErr where
  | resultNotFound
  | tooManyResults
  | resultNotParsable
  | upstream (msg : String)
  | wrapped (msg : String) (inner : PromErr)
deriving DecidableEq

/-- `errors.Is`: an error matches a target if it equals it or its unwrap
chain reaches it. -/
def PromErr.is (e target : PromErr) : Bool :=
  e == target ||
    (match e with
     | .wrapped _ inner => inner.is target
     | _ => false)

/-- The shape of a Prometheus query response after JSON decoding: either a
vector of samples or some other result type (which the code rejects as
`ErrResultNotParsable`). -/
inductive PromResponse where
  | vector (samples : List Sample)
  | nonVector (descr : String)

/-- The request issued to the Prometheus API: expanded query text, timeout
option (`v1.WithTimeout`), and result limit (`v1.WithLimit`). -/
structure PromRequest where
  query : String
  timeout : Time
  limit : Nat
deriving DecidableEq

/-! ### Single-sample querier (`internal/prometheus/single.go`) -/

/-- `SingleValueQuery`: the parsed, validated query template is modeled as
its denotation, a function of the environment `name` and `namespace`
(config validation guarantees expansion cannot fail). -/
structure SingleQuery where
  tpl : String → String → String
  interval : Time
  timeout : Time
  extractLabel : String

/-- The request `queryForEnvironment` issues: the expanded template, the
configured timeout (`v1.WithTimeout`), and the hard result limit of 2
(`v1.WithLimit(2)`), used to detect overflow cheaply. -/
def singleQueryRequest (q : SingleQuery) (name nspace : String) : PromRequest :=
  { query := q.tpl name nspace, timeout := q.timeout, limit := 2 }

/-- `SingleValueQuery.queryForEnvironment`: expands the template, issues
the query with a hard result limit of 2, and demands exactly one sample:
zero samples yield `ErrResultNotFound`, more than one `ErrTooManyResults`.
Returns the classified result together with the request that was issued.
(The metric `promQueryDuration` observation, the staleness warning and log
statements are side-effect-free instrumentation and are not modeled.) -/
def singleQueryForEnvironment (q : SingleQuery) (name nspace : String)
    (backend : PromRequest → Except PromErr PromResponse) :
    Except PromErr Sample × PromRequest :=
  (match backend (singleQueryRequest q name nspace) with
   | .error e => .error (.wrapped "query failed" e)
   | .ok (.nonVector _) => .error (.wrapped "unexpected result type" .resultNotParsable)
   | .ok (.vector []) => .error .resultNotFound
   | .ok (.vector [s]) => .ok s
   | .ok (.vector (_ :: _ :: _)) => .error .tooManyResults,
   singleQueryRequest q name nspace)

/-! ### Per-environment query executor (`internal/prometheus/query.go`) -/

/-- The mutable state of an `environmentQuery`: cached sample, time of the
last successful query, and the registration flag. -/
structure EnvQueryState where
  lastStored : Sample
  lastUpdate : Time
  registered : Bool
deriving DecidableEq

/-- `environmentQuery.sample`: takes the querier interval, the current
time (`time.Now()`), and the outcome the backend would produce if queried
(`queryForEnvironment`). Returns the result, the new state, and the number
of backend queries issued (0 or 1). An unregistered executor errors
without querying; a fresh cache (`time.Since(lastUpdate) < interval`) is
served without querying; a failed query leaves the state unchanged. -/
def envQuerySample (interval : Time) (q : EnvQueryState) (now : Time)
    (backend : Except PromErr Sample) :
    Except PromErr Sample × EnvQueryState × Nat :=
  if q.registered = false then
    (.error (.wrapped "environment not registered" .resultNotFound), q, 0)
  else if now - q.lastUpdate < interval then
    (.ok q.lastStored, q, 0)
  else
    match backend with
    | .error e => (.error (.wrapped "failed to query Prometheus for value" e), q, 1)
    | .ok smp => (.ok smp, { lastStored := smp, lastUpdate := now, registered := q.registered }, 1)

/-- Abstraction of `model.SampleValue.String()` (Go float formatting; its
exact text is irrelevant to every verified property). -/
def sampleValueString (v : ℚ) : String := toString v

/-- `cmp.Or(label, value.String(), "")`: the first non-zero string. -/
def cmpOr (a b : String) : String := if a ≠ "" then a else b

/-- `environmentQuery.Value`. -/
def envQueryValue (interval : Time) (q : EnvQueryState) (now : Time)
    (backend : Except PromErr Sample) :
    Except PromErr ℚ × EnvQueryState × Nat :=
  match envQuerySample interval q now backend with
  | (.error e, st, n) => (.error e, st, n)
  | (.ok smp, st, n) => (.ok smp.value, st, n)

/-- `environmentQuery.Text`: the configured `extractLabel` value from the
sample's labels (Go map lookup yields `""` when absent), or the
stringified numeric value. -/
def envQueryText (interval : Time) (extractLabel : String) (q : EnvQueryState) (now : Time)
    (backend : Except PromErr Sample) :
    Except PromErr String × EnvQueryState × Nat :=
  match envQuerySample interval q now backend with
  | (.error e, st, n) => (.error e, st, n)
  | (.ok smp, st, n) =>
      (.ok (cmpOr ((lookupA smp.metric extractLabel).getD "") (sampleValueString smp.value)), st, n)

/-- `environmentQuery.Destroy`: resets the cached sample and last-update
time to their zero values, clears the registration flag, and returns
whatever `query.removeEnvironment` returns (a parameter here). -/
def envQueryDestroy (_q : EnvQueryState) (removeResult : Option PromErr) :
    EnvQueryState × Option PromErr :=
  ({ lastStored := zeroSample, lastUpdate := 0, registered := false }, removeResult)

/-! ### Bulk querier (`internal/prometheus/bulk.go`) -/

/-- `QueryMatchOn` restricted to its validated values (`Validate` rejects
anything but `name` and `namespace`). -/
inductive MatchOn where
  | envName
  | nspace
deriving DecidableEq

/-- The static configuration of a `BulkValueQuery`. -/
structure BulkConfig where
  query : String
  interval : Time
  timeout : Time
  matchOn : MatchOn
  matchLabel : String
deriving DecidableEq

/-- The mutable state of a `BulkValueQuery`: time of the last bulk query
and the shared result cache keyed by match label value. -/
structure BulkState where
  lastQuery : Time
  valCache : List (String × Sample)
deriving DecidableEq

/-- `BulkValueQuery.matchKey`. -/
def matchKey (cfg : BulkConfig) (name nspace : String) : String :=
  match cfg.matchOn with
  | .envName => name
  | .nspace => nspace

/-- Indexing the returned vector by the sample's `matchLabel` value
(a missing label reads as `""`, the Go map zero value). -/
def newBulkCache (matchLabel : String) (samples : List Sample) : List (String × Sample) :=
  samples.foldl (fun acc s => insertA acc ((lookupA s.metric matchLabel).getD "") s) []

/-- `BulkValueQuery.queryForEnvironment`: within the interval, serve the
cache — a miss yields a zero-valued sample stamped with the last query
time. Otherwise reset the cache, run the bulk query, rebuild the cache
from the vector, and serve the match — a miss in the fresh cache yields a
zero-valued sample stamped with the current time, not an error. Returns
the result, the new state, and the number of backend queries issued.
(Duration metrics, staleness warnings and logging are not modeled.) -/
def bulkQueryForEnvironment (cfg : BulkConfig) (st : BulkState) (envName nspace : String)
    (now : Time) (backend : Except PromErr PromResponse) :
    Except PromErr Sample × BulkState × Nat :=
  if now - st.lastQuery < cfg.interval then
    match lookupA st.valCache (matchKey cfg envName nspace) with
    | some v => (.ok v, st, 0)
    | none => (.ok { metric := [], value := 0, timestamp := st.lastQuery }, st, 0)
  else
    match backend with
    | .error e => (.error (.wrapped "query failed" e), { st with valCache := [] }, 1)
    | .ok (.nonVector _) =>
        (.error (.wrapped "unexpected result type" .resultNotParsable),
         { st with valCache := [] }, 1)
    | .ok (.vector samples) =>
        match lookupA (newBulkCache cfg.matchLabel samples) (matchKey cfg envName nspace) with
        | none =>
            (.ok { metric := [], value := 0, timestamp := now },
             { lastQuery := now, valCache := newBulkCache cfg.matchLabel samples }, 1)
        | some v =>
            (.ok v, { lastQuery := now, valCache := newBulkCache cfg.matchLabel samples }, 1)

/-! ## Probe layer (`internal/probe`) -/

/-- `PromValToBool` (probe converter): numeric value 0 is false, anything
else — including negatives — is true; it never fails. -/
def PromValToBool (value : ℚ) (_text : String) : Except String Bool :=
  if value = 0 then .ok false else .ok true

/-- `PromValToFloat`: the numeric value unchanged; never fails. -/
def PromValToFloat (value : ℚ) (_text : String) : Except String ℚ := .ok value

/-- `PromValToString`: the text representation unchanged; never fails. -/
def PromValToString (_value : ℚ) (text : String) : Except String String := .ok text

/-! ## Metadata annotation parsing (`cmd/autodiscovery/events.go`) -/

/-- What Go's `json.Unmarshal` into `any` can produce: `nil`, `bool`,
`float64`, `string`, `[]any`, `map[string]any`. The contents of arrays and
objects are never inspected by the code under verification, so they carry
no payload here. -/
inductive GoJsonValue where
  | null
  | bool (b : Bool)
  | number (x : ℚ)
  | string (s : String)
  | array
  | object
deriving DecidableEq

/-- The typed value held by a static metadata probe. -/
inductive MetaValue where
  | bool (b : Bool)
  | number (x : ℚ)
  | string (s : String)
deriving DecidableEq

/-- `parseMetadataAnnotation` (named `parseMetadataValue` here because the
Go name cannot be used verbatim): the decoder outcome of `json.Unmarshal`
on the raw annotation string is a parameter (`none` = parse error). A
decoded bool, number, or string becomes the typed probe value; anything
else falls back to a static probe holding the literal annotation string. -/
def parseMetadataValue (value : String) (decoded : Option GoJsonValue) : MetaValue :=
  match decoded with
  | none => .string value
  | some (.bool b) => .bool b
  | some (.number x) => .number x
  | some (.string s) => .string s
  | some .null => .string value
  | some .array => .string value
  | some .object => .string value

/-! ## Status filter parsing (`cmd/autodiscovery/server.go`)

The Go standard string helpers are modeled structurally over the character
list of a `String` so that concrete instances evaluate inside the kernel.
`strings.TrimSpace` trims Unicode whitespace; `Char.isWhitespace` covers
the whitespace that can occur in an HTTP query parameter. -/

/-- `strings.TrimSpace`. -/
def goTrim (s : String) : String :=
  String.mk (((s.data.dropWhile Char.isWhitespace).reverse.dropWhile Char.isWhitespace).reverse)

/-- Helper of `goSplitComma`: accumulates the current field (reversed). -/
def goSplitCommaAux : List Char → List Char → List String
  | [], acc => [String.mk acc.reverse]
  | c :: rest, acc =>
      if c = ',' then String.mk acc.reverse :: goSplitCommaAux rest []
      else goSplitCommaAux rest (c :: acc)

/-- `strings.SplitSeq(s, ",")` (same fields as `strings.Split`). -/
def goSplitComma (s : String) : List String :=
  goSplitCommaAux s.data []

/-- `strings.Join(l, ",")`. -/
def goJoinComma : List String → String
  | [] => ""
  | [x] => x
  | x :: rest => x ++ "," ++ goJoinComma rest

/-- `strings.CutPrefix(f, "!")`: the rest of the string when it starts
with `!`. -/
def goCutBang (s : String) : Option String :=
  match s.data with
  | '!' :: rest => some (String.mk rest)
  | _ => none

/-- One step of `parseStatusFilter`'s token loop: trim the token, drop it
if empty, strip a leading `!` (`strings.CutPrefix`) and re-trim — a bare
`!` is dropped — and record the requirement in the filter map. -/
def parseStatusFilterStep (filter : List (String × Bool)) (tok : String) :
    List (String × Bool) :=
  if goTrim tok = "" then filter
  else
    match goCutBang (goTrim tok) with
    | some after =>
        if goTrim after = "" then filter else insertA filter (goTrim after) false
    | none => insertA filter (goTrim tok) true

/-- `parseStatusFilter`: all occurrences of the query parameter are joined
with commas (`strings.Join`), then split on commas and folded token by
token; an empty joined query short-circuits to the empty filter. -/
def parseStatusFilter (occurrences : List String) : List (String × Bool) :=
  if goJoinComma occurrences = "" then []
  else (goSplitComma (goJoinComma occurrences)).foldl parseStatusFilterStep []

/-- Modelled from the spec wording (claim-side definition for the
refinement check): trim the token; drop it when empty; a leading `!` makes
the rest (re-trimmed) a `false` requirement — a bare `!` is dropped —
otherwise the token is a `true` requirement. -/
def statusFilterSpecStep (filter : List (String × Bool)) (tok : String) :
    List (String × Bool) :=
  if goTrim tok = "" then filter
  else
    match (goTrim tok).data with
    | '!' :: rest =>
        if goTrim (String.mk rest) = "" then filter
        else insertA filter (goTrim (String.mk rest)) false
    | _ => insertA filter (goTrim tok) true

/-- Claim-side filter parser built from the spec's words: concatenate the
parameter occurrences with commas, split on commas, and fold the token
rule over the result. -/
def statusFilterSpec (occurrences : List String) : List (String × Bool) :=
  (goSplitComma (goJoinComma occurrences)).foldl statusFilterSpecStep []

/-! ## Discovery store (`internal/store`) -/

deriving instance DecidableEq for Except

/-- A bound status-check probe (`probe.Probe[bool]`). `pid` identifies the
probe so that `Destroy` calls can be observed; `result` is what its
`Value(ctx)` call produces. Every implementation in the repository returns
the zero value `false` alongside an error, which `goValue` captures. -/
structure BoolProbe where
  pid : Nat
  result : Except String Bool
deriving DecidableEq

/-- The boolean a Go caller receives from `Value(ctx)` when it discards
the error: the probe's value, or the zero value `false` on error. -/
def BoolProbe.goValue (p : BoolProbe) : Bool :=
  match p.result with
  | .ok v => v
  | .error _ => false

/-- A bound metadata probe handle (`probe.MetadataProbe`). Its interface
exposes only `Value` and `LastUpdate` — it has no `Destroy` method. Only
its identity matters to the verified properties. -/
structure MetaProbe where
  pid : Nat
deriving DecidableEq

/-- `store.Environment`. A `none` map models a Go `nil` map, and a `none`
probe value models a `nil` interface value (both representable in Go and
checked by `IsValid`). `namespace` is a Lean keyword, hence `nspace`. -/
structure Environment where
  name : String
  nspace : String
  createdAt : Time
  url : Option (List (String × String))
  statusChecks : Option (List (String × Option BoolProbe))
  metaProbes : Option (List (String × Option MetaProbe))
deriving DecidableEq

def invalidEmpty : String := "cannot be empty"
def invalidZero : String := "cannot be zero"
def invalidNil : String := "cannot be nil"

/-- The loop of `IsValid` over the `URL` map: keys and values must be
non-empty. -/
def checkURLMap (acc : List (String × String)) (m : Option (List (String × String))) :
    List (String × String) :=
  match m with
  | none => insertA acc "url" invalidNil
  | some l =>
      l.foldl
        (fun a kv =>
          let a := if kv.1 = "" then insertA a "urlKey" invalidEmpty else a
          if kv.2 = "" then insertA a "urlValue" invalidEmpty else a)
        acc

/-- The loops of `IsValid` over `StatusChecks` / `MetaProbes`: the map
must not be nil, keys must be non-empty, values must not be nil. The
problem keys differ between the two maps and are passed in. -/
def checkProbeMap {β : Type _} (acc : List (String × String))
    (m : Option (List (String × Option β))) (nilKey keyKey valKey : String) :
    List (String × String) :=
  match m with
  | none => insertA acc nilKey invalidNil
  | some l =>
      l.foldl
        (fun a kv =>
          let a := if kv.1 = "" then insertA a keyKey invalidEmpty else a
          if kv.2.isNone then insertA a valKey invalidNil else a)
        acc

/-- `Environment.IsValid`: the returned problems map (empty iff valid).
The Go nil-receiver check has no counterpart for a Lean value. -/
def Environment.isValid (e : Environment) : List (String × String) :=
  let problems : List (String × String) := []
  let problems := if e.name = "" then insertA problems "name" invalidEmpty else problems
  let problems := if e.createdAt = 0 then insertA problems "createdAt" invalidZero else problems
  let problems := if e.nspace = "" then insertA problems "namespace" invalidEmpty else problems
  let problems := checkURLMap problems e.url
  let problems :=
    checkProbeMap problems e.statusChecks "statusChecks" "statusCheckKey" "statusCheckValue"
  checkProbeMap problems e.metaProbes "metadata" "metadataKey" "metadataValue"

inductive StoreErr where
  | invalidEnvironment
  | environmentNotFound
  | immutableFieldChanged
deriving DecidableEq

/-- `Environment.UpdateEnvironment` (environment.go): any provided
(non-empty / non-zero) immutable field that differs from the current one
is rejected; otherwise the provided (non-nil) maps replace the current
ones. -/
def Environment.updateEnvironment (e env : Environment) : Except StoreErr Environment :=
  if env.name ≠ "" ∧ env.name ≠ e.name then .error .immutableFieldChanged
  else if env.nspace ≠ "" ∧ env.nspace ≠ e.nspace then .error .immutableFieldChanged
  else if env.createdAt ≠ 0 ∧ env.createdAt ≠ e.createdAt then .error .immutableFieldChanged
  else
    .ok
      { e with
        url := match env.url with | some u => some u | none => e.url
        statusChecks := match env.statusChecks with | some c => some c | none => e.statusChecks
        metaProbes := match env.metaProbes with | some m => some m | none => e.metaProbes }

/-- Modelled from the claim wording (claim-side definition): the entry
merged from the old entry and `env`'s non-empty fields. -/
def mergeSpec (old new : Environment) : Environment :=
  { name := if new.name = "" then old.name else new.name
    nspace := if new.nspace = "" then old.nspace else new.nspace
    createdAt := if new.createdAt = 0 then old.createdAt else new.createdAt
    url := match new.url with | some u => some u | none => old.url
    statusChecks := match new.statusChecks with | some c => some c | none => old.statusChecks
    metaProbes := match new.metaProbes with | some m => some m | none => old.metaProbes }

/-- `Environment.MatchesStatus` evaluates a probe by discarding the error
of `Value(ctx)`; `goValue` is that convention. Go would panic when calling
`Value` on a nil probe interface; store validation keeps nil probes out of
the store, and the unreachable case is modeled as `false`. -/
def probeGoValue : Option BoolProbe → Bool
  | none => false
  | some p => p.goValue

/-- `Environment.MatchesStatus`: every filter entry must agree with the
probe's (error-discarded) value; a missing check counts as `false`.
(A nil `StatusChecks` map has no entries, like a Go nil map.) -/
def Environment.matchesStatus (e : Environment) (state : List (String × Bool)) : Bool :=
  state.all fun cr =>
    match lookupA (e.statusChecks.getD []) cr.1 with
    | none => !cr.2
    | some p => probeGoValue p == cr.2

/-- `store.Store`: the environment map, plus an instrumentation trace of
the probe ids on which `Destroy` has been called (the observable effect of
`deleteEnvironment`; Go state does not store this list, it records the
calls the code makes, in order). The `envInfo` metric is not modeled. -/
structure Store where
  env : List (String × Environment)
  destroyed : List Nat
deriving DecidableEq

/-- `NewStore`. -/
def Store.new : Store := { env := [], destroyed := [] }

/-- The ids of the non-nil status-check probes an environment owns, in map
order (Go iteration order is unspecified; only the set matters to the
properties verified here). -/
def statusProbeIds (env : Environment) : List Nat :=
  (env.statusChecks.getD []).filterMap (fun kv => kv.2.map (·.pid))

/-- `Store.deleteEnvironment` (the internal, lock-free method): a missing
name is `ErrEnvironmentNotFound`; otherwise `Destroy` is called on every
non-nil status-check probe of the entry and the entry is removed. -/
def Store.deleteEnvironment (s : Store) (name : String) : Store × Option StoreErr :=
  match lookupA s.env name with
  | none => (s, some .environmentNotFound)
  | some env =>
      ({ env := removeA s.env name, destroyed := s.destroyed ++ statusProbeIds env }, none)

/-- `Store.addEnvironment` (the internal, lock-free method): an invalid
environment is rejected; a name collision first deletes the previous
entry (destroying its status probes) to stay aligned with the event
stream; then the entry is stored. -/
def Store.addEnvironment (s : Store) (env : Environment) : Store × Option StoreErr :=
  if env.isValid.length > 0 then (s, some .invalidEnvironment)
  else
    match lookupA s.env env.name with
    | some _ =>
        match s.deleteEnvironment env.name with
        | (s1, some e) => (s1, some e)
        | (s1, none) => ({ s1 with env := insertA s1.env env.name env }, none)
    | none => ({ s with env := insertA s.env env.name env }, none)

/-- `Store.GetEnvironment`. -/
def Store.getEnvironment (s : Store) (name : String) : Except StoreErr Environment :=
  match lookupA s.env name with
  | none => .error .environmentNotFound
  | some env => .ok env

/-- `Store.UpdateEnvironment`: a missing name falls back to
`addEnvironment`; an in-place update stores the merged entry under the key
`env.Name`; an immutable-field change deletes the old entry and re-adds
the new one. -/
def Store.updateEnvironment (s : Store) (name : String) (env : Environment) :
    Store × Option StoreErr :=
  match lookupA s.env name with
  | none => s.addEnvironment env
  | some current =>
      match current.updateEnvironment env with
      | .ok current2 => ({ s with env := insertA s.env env.name current2 }, none)
      | .error .immutableFieldChanged =>
          match s.deleteEnvironment name with
          | (s1, some e) => (s1, some e)
          | (s1, none) => s1.addEnvironment env
      | .error e => (s, some e)

/-- `Store.GetEnvironmentNamesWithState`: the names of the matching
entries, sorted ascending (the Go loop sorts the accumulator on every
iteration; the final value is the sorted list of matching names,
independent of map iteration order). -/
def Store.getEnvironmentNamesWithState (s : Store) (state : List (String × Bool)) :
    List String :=
  List.insertionSort (· ≤ ·) ((s.env.filter (fun p => p.2.matchesStatus state)).map (·.1))

/-! ## Concrete instances used by counterexamples and witnesses -/

/-- A valid stored environment named `e`. -/
def e0cx : Environment := ⟨"e", "ns", 5, some [("api", "u1")], some [], some []⟩

/-- A store holding exactly `e0cx` under its name. -/
def s0cx : Store := ⟨[("e", e0cx)], []⟩

/-- An update payload with an empty name (the event reducer produces one
when the name label disappears from the namespace). -/
def envBlankCx : Environment := ⟨"", "", 0, some [("api", "u2")], none, none⟩

/-- An in-place update payload for `e0cx` changing only the URL map. -/
def envWcx : Environment := ⟨"e", "ns", 5, some [("api", "u2")], some [], some []⟩

/-- A status-check probe with id 3. -/
def bpCx : BoolProbe := ⟨3, .ok true⟩

/-- A metadata probe with id 7. -/
def mpCx : MetaProbe := ⟨7⟩

/-- An environment owning one status-check probe and one metadata probe. -/
def e3cx : Environment :=
  ⟨"e", "ns", 5, some [], some [("healthy", some bpCx)], some [("owner", some mpCx)]⟩

/-- A store holding exactly `e3cx`. -/
def s3cx : Store := ⟨[("e", e3cx)], []⟩

/-- A bulk query configuration with interval 50. -/
def bcfgCx : BulkConfig := ⟨"up", 50, 10, .envName, "env"⟩

/-- A bulk state whose last query ran at time 100 with an empty cache. -/
def bstCx : BulkState := ⟨100, []⟩

/-- A cached sample and a registered executor state for the C4 witness. -/
def sampCx : Sample := ⟨[("owner", "team-a")], 1, 90⟩

def qstCx : EnvQueryState := ⟨sampCx, 100, true⟩

/-- Environment and store for the C2 witness. -/
def e2cx : Environment := ⟨"a", "ns-a", 5, some [], some [("healthy", some ⟨1, .ok true⟩)], some []⟩

def s2cx : Store := ⟨[("a", e2cx)], []⟩

/-- A single-sample query for the C6 witness. -/
def sqCx : SingleQuery := ⟨fun _ _ => "vector(1)", 50, 10, ""⟩

/-! ## Helper lemmas -/

theorem lookupA_append {α : Type _} (l1 l2 : List (String × α)) (k : String) :
    lookupA (l1 ++ l2) k =
      (match lookupA l1 k with | some v => some v | none => lookupA l2 k) := by
  induction l1 with
  | nil => simp [lookupA]
  | cons p rest ih =>
      rcases p with ⟨k1, v1⟩
      by_cases h : k1 = k <;> simp [lookupA, h, ih]

theorem lookupA_removeA_self {α : Type _} (l : List (String × α)) (k : String) :
    lookupA (removeA l k) k = none := by
  induction l with
  | nil => simp [lookupA, removeA]
  | cons p rest ih =>
      rcases p with ⟨k1, v1⟩
      by_cases h : k1 = k <;> simp [lookupA, removeA, h] <;> simpa [removeA] using ih

theorem lookupA_removeA_ne {α : Type _} (l : List (String × α)) (k k2 : String) (h : k2 ≠ k) :
    lookupA (removeA l k) k2 = lookupA l k2 := by
  induction l with
  | nil => simp [lookupA, removeA]
  | cons p rest ih =>
      rcases p with ⟨k1, v1⟩
      by_cases h1 : k1 = k
      · subst h1
        have hne : ¬ (k1 = k2) := fun hk => h hk.symm
        simp [lookupA, removeA, List.filter_cons, hne]
        simpa [removeA] using ih
      · by_cases h2 : k1 = k2
        · subst h2
          simp [lookupA, removeA, List.filter_cons, h1]
        · simp [lookupA, removeA, List.filter_cons, h1, h2]
          simpa [removeA] using ih

theorem lookupA_insertA_self {α : Type _} (l : List (String × α)) (k : String) (v : α) :
    lookupA (insertA l k v) k = some v := by
  unfold insertA
  rw [lookupA_append, lookupA_removeA_self]
  simp [lookupA]

theorem lookupA_insertA_ne {α : Type _} (l : List (String × α)) (k k2 : String) (v : α)
    (h : k2 ≠ k) :
    lookupA (insertA l k v) k2 = lookupA l k2 := by
  unfold insertA
  rw [lookupA_append, lookupA_removeA_ne l k k2 h]
  have hks : ¬ (k = k2) := fun hk => h hk.symm
  cases hl : lookupA l k2 <;> simp [hl, lookupA, hks]

theorem lookupA_mem {α : Type _} (l : List (String × α)) (k : String) (v : α)
    (h : lookupA l k = some v) : (k, v) ∈ l := by
  induction l with
  | nil => simp [lookupA] at h
  | cons p rest ih =>
      rcases p with ⟨k1, v1⟩
      by_cases h1 : k1 = k
      · subst h1
        simp [lookupA] at h
        simp [h]
      · simp [lookupA, h1] at h
        exact List.mem_cons_of_mem _ (ih h)

/-! ## Claim C9 -/

/-- C9. For every query sample, the `toBool` conversion (`PromValToBool`)
yields true iff the sample's numeric value is nonzero, and never fails; in
particular a negative numeric value converts to true. -/
theorem c9_prom_val_to_bool :
    (∀ (v : ℚ) (t : String), PromValToBool v t = .ok (decide (v ≠ 0))) ∧
    PromValToBool (-1) "" = .ok true ∧
    PromValToBool 0 "" = .ok false := by
  refine ⟨?_, by decide, by decide⟩
  intro v t
  unfold PromValToBool
  by_cases h : v = 0 <;> simp [h]

/-! ## Claim C10 -/

/-- C10. After `Destroy` on a single-sample query executor, the cached
sample and last-update time are reset to their zero values, the executor
is deregistered, and every subsequent `sample`/`Value`/`Text` call returns
an error wrapping `ErrResultNotFound` ("environment not registered")
without issuing any backend query and without changing the state (so the
same holds for all later calls). -/
theorem c10_destroy_resets_and_rejects (q : EnvQueryState) (removeResult : Option PromErr)
    (I now : Time) (backend : Except PromErr Sample) (extractLabel : String) :
    envQueryDestroy q removeResult =
      ({ lastStored := zeroSample, lastUpdate := 0, registered := false }, removeResult) ∧
    envQuerySample I (envQueryDestroy q removeResult).1 now backend =
      (.error (.wrapped "environment not registered" .resultNotFound),
       (envQueryDestroy q removeResult).1, 0) ∧
    envQueryValue I (envQueryDestroy q removeResult).1 now backend =
      (.error (.wrapped "environment not registered" .resultNotFound),
       (envQueryDestroy q removeResult).1, 0) ∧
    envQueryText I extractLabel (envQueryDestroy q removeResult).1 now backend =
      (.error (.wrapped "environment not registered" .resultNotFound),
       (envQueryDestroy q removeResult).1, 0) ∧
    (PromErr.wrapped "environment not registered" .resultNotFound).is .resultNotFound = true := by
  refine ⟨rfl, rfl, rfl, rfl, by decide⟩

/-! ## Claim C8 -/

/-- C8. Parsing a metadata annotation value: a JSON decode to a bool,
number, or string yields that typed value; anything else (object, array,
null, or a parse failure) yields the literal annotation string. -/
theorem c8_parse_metadata_value (v : String) (d : Option GoJsonValue) :
    (∀ b, d = some (.bool b) → parseMetadataValue v d = .bool b) ∧
    (∀ x, d = some (.number x) → parseMetadataValue v d = .number x) ∧
    (∀ s, d = some (.string s) → parseMetadataValue v d = .string s) ∧
    ((d = none ∨ d = some .null ∨ d = some .array ∨ d = some .object) →
      parseMetadataValue v d = .string v) := by
  refine ⟨?_, ?_, ?_, ?_⟩
  · intro b hb; subst hb; rfl
  · intro x hx; subst hx; rfl
  · intro s hs; subst hs; rfl
  · rintro (h | h | h | h) <;> subst h <;> rfl

/-- Witness for C8: the spec's round-trip instances — JSON `true` becomes
bool true, `7` becomes number 7, `"x"` becomes string `x`, and an array
decodes to the literal source text. -/
theorem c8_parse_metadata_value_witness :
    parseMetadataValue "true" (some (.bool true)) = .bool true ∧
    parseMetadataValue "7" (some (.number 7)) = .number 7 ∧
    parseMetadataValue "\"x\"" (some (.string "x")) = .string "x" ∧
    parseMetadataValue "[1, 2]" (some .array) = .string "[1, 2]" :=
  ⟨(c8_parse_metadata_value "true" _).1 true rfl,
   (c8_parse_metadata_value "7" _).2.1 7 rfl,
   (c8_parse_metadata_value "\"x\"" _).2.2.1 "x" rfl,
   (c8_parse_metadata_value "[1, 2]" _).2.2.2 (Or.inr (Or.inr (Or.inl rfl)))⟩

/-! ## Claim C7 -/

/-- The two token rules — the transliterated one and the one written from
the spec's words — agree on every token. -/
theorem parseStatusFilterStep_eq_spec (filter : List (String × Bool)) (tok : String) :
    parseStatusFilterStep filter tok = statusFilterSpecStep filter tok := by
  unfold parseStatusFilterStep statusFilterSpecStep goCutBang
  by_cases h0 : goTrim tok = ""
  · rw [if_pos h0, if_pos h0]
  · rw [if_neg h0, if_neg h0]
    rcases hd : (goTrim tok).data with _ | ⟨c, rest⟩
    · refine absurd (String.ext ?_) h0
      rw [hd]
    · by_cases hc : c = '!'
      · subst hc
        rfl
      · have hL : (match c :: rest with
            | '!' :: r => some (String.mk r)
            | _ => (none : Option String)) = (none : Option String) := by
          split
          · rename_i heq
            cases heq
            exact absurd rfl hc
          · rfl
        simp only [hL]
        split
        · rename_i r heq
          cases heq
          exact absurd rfl hc
        · rfl

/-- C7. Status-filter parsing: all occurrences of the parameter are
joined with commas, split on commas, tokens are trimmed, `NAME` maps to
`NAME ↦ true` and `!NAME` to `NAME ↦ false`, and empty tokens and a bare
`!` are dropped (the refinement against the spec-side parser), with the
claim's concrete instances. -/
theorem c7_parse_status_filter :
    (∀ occurrences : List String, parseStatusFilter occurrences = statusFilterSpec occurrences) ∧
    parseStatusFilter ["healthy,!active"] = [("healthy", true), ("active", false)] ∧
    parseStatusFilter [" healthy , ! , !active "] = [("healthy", true), ("active", false)] ∧
    parseStatusFilter [] = [] := by
  refine ⟨?_, by decide, by decide, by decide⟩
  intro occ
  unfold parseStatusFilter statusFilterSpec
  by_cases h : goJoinComma occ = ""
  · rw [h]
    decide
  · rw [if_neg h]
    exact List.foldl_ext _ _ [] (fun b a _ => parseStatusFilterStep_eq_spec b a)

/-! ## Claim C4 -/

/-- C4. For a registered single-sample query executor with interval `I`
whose last successful query completed at `lastUpdate`: a `sample`,
`Value` or `Text` call at time `t` with `t - lastUpdate < I` returns the
cached sample without issuing a backend query and without changing state;
a call with `t - lastUpdate ≥ I` issues at most one backend query; and a
failed query leaves the state (in particular the cache time) unchanged,
so the next call queries again. -/
theorem c4_single_query_caching (I : Time) (q : EnvQueryState) (t : Time)
    (backend : Except PromErr Sample) (extractLabel : String)
    (hreg : q.registered = true) :
    (t - q.lastUpdate < I →
        envQuerySample I q t backend = (.ok q.lastStored, q, 0) ∧
        envQueryValue I q t backend = (.ok q.lastStored.value, q, 0) ∧
        envQueryText I extractLabel q t backend =
          (.ok (cmpOr ((lookupA q.lastStored.metric extractLabel).getD "")
                (sampleValueString q.lastStored.value)), q, 0)) ∧
    (I ≤ t - q.lastUpdate → (envQuerySample I q t backend).2.2 ≤ 1) ∧
    (∀ e, backend = .error e → (envQuerySample I q t backend).2.1 = q) := by
  have hnf : ¬ q.registered = false := by simp [hreg]
  refine ⟨?_, ?_, ?_⟩
  · intro hlt
    have hs : envQuerySample I q t backend = (.ok q.lastStored, q, 0) := by
      unfold envQuerySample
      rw [if_neg hnf, if_pos hlt]
    refine ⟨hs, ?_, ?_⟩
    · unfold envQueryValue
      rw [hs]
    · unfold envQueryText
      rw [hs]
  · intro hge
    have hnlt : ¬ (t - q.lastUpdate < I) := not_lt.mpr hge
    unfold envQuerySample
    rw [if_neg hnf, if_neg hnlt]
    cases backend <;> simp
  · intro e he
    subst he
    unfold envQuerySample
    rw [if_neg hnf]
    by_cases hlt : t - q.lastUpdate < I
    · rw [if_pos hlt]
    · rw [if_neg hlt]

/-- Witness for C4: a call 5 time units after the last update with
interval 10 serves the cache even though the backend would fail. -/
theorem c4_single_query_caching_witness :
    (105 - qstCx.lastUpdate < (10 : Time)) ∧ qstCx.registered = true ∧
    envQuerySample 10 qstCx 105 (.error .resultNotFound) = (.ok qstCx.lastStored, qstCx, 0) :=
  ⟨by decide, by decide,
   ((c4_single_query_caching 10 qstCx 105 (.error .resultNotFound) "" (by decide)).1
     (by decide)).1⟩

/-! ## Claim C5 -/

/-- C5 (amended). A bound environment whose match key misses the cache
gets a zero-valued sample and no error in both paths; but the timestamp
is the last-bulk-query time when the call is served within the interval,
and the current time only when the call itself refreshed the cache. -/
theorem c5_bulk_miss_zero_sample (cfg : BulkConfig) (st : BulkState) (envName nspace : String)
    (now : Time) (backend : Except PromErr PromResponse) :
    (now - st.lastQuery < cfg.interval →
      lookupA st.valCache (matchKey cfg envName nspace) = none →
      bulkQueryForEnvironment cfg st envName nspace now backend =
        (.ok { metric := [], value := 0, timestamp := st.lastQuery }, st, 0)) ∧
    (cfg.interval ≤ now - st.lastQuery →
      ∀ samples, backend = .ok (.vector samples) →
      lookupA (newBulkCache cfg.matchLabel samples) (matchKey cfg envName nspace) = none →
      bulkQueryForEnvironment cfg st envName nspace now backend =
        (.ok { metric := [], value := 0, timestamp := now },
         { lastQuery := now, valCache := newBulkCache cfg.matchLabel samples }, 1)) := by
  constructor
  · intro hlt hmiss
    unfold bulkQueryForEnvironment
    rw [if_pos hlt]
    simp only [hmiss]
  · intro hge samples hb hmiss
    have hnlt : ¬ (now - st.lastQuery < cfg.interval) := not_lt.mpr hge
    subst hb
    unfold bulkQueryForEnvironment
    rw [if_neg hnlt]
    simp only [hmiss]

/-- Counterexample for C5 as stated: at time 120, within the interval of
a bulk querier whose last query ran at 100 and whose cache has no entry
for the environment, the call returns value 0 and no error but the
timestamp 100 — the last query time, not the current time 120. -/
theorem c5_bulk_miss_counterexample :
    (120 : Time) - bstCx.lastQuery < bcfgCx.interval ∧
    lookupA bstCx.valCache (matchKey bcfgCx "e" "ns") = none ∧
    (bulkQueryForEnvironment bcfgCx bstCx "e" "ns" 120 (.ok (.vector []))).1 =
      .ok { metric := [], value := 0, timestamp := 100 } ∧
    (100 : Time) ≠ 120 := by
  decide

/-- Witness for C5: the within-interval miss at time 110 returns value 0,
no error, stamped with the last query time, issuing no backend query. -/
theorem c5_bulk_miss_zero_sample_witness :
    bulkQueryForEnvironment bcfgCx bstCx "e" "ns" 110 (.error .resultNotFound) =
      (.ok { metric := [], value := 0, timestamp := 100 }, bstCx, 0) :=
  (c5_bulk_miss_zero_sample bcfgCx bstCx "e" "ns" 110 (.error .resultNotFound)).1
    (by decide) (by decide)

/-! ## Claim C6 -/

/-- C6. A single-sample query is issued with a hard result limit of 2; a
result vector with zero samples fails with `ErrResultNotFound`, more than
one sample fails with `ErrTooManyResults`, and exactly one sample
succeeds with that sample. -/
theorem c6_single_query_cardinality (q : SingleQuery) (name nspace : String)
    (backend : PromRequest → Except PromErr PromResponse) :
    (singleQueryForEnvironment q name nspace backend).2 = singleQueryRequest q name nspace ∧
    (singleQueryRequest q name nspace).limit = 2 ∧
    (backend (singleQueryRequest q name nspace) = .ok (.vector []) →
      (singleQueryForEnvironment q name nspace backend).1 = .error .resultNotFound) ∧
    (∀ smp, backend (singleQueryRequest q name nspace) = .ok (.vector [smp]) →
      (singleQueryForEnvironment q name nspace backend).1 = .ok smp) ∧
    (∀ v, backend (singleQueryRequest q name nspace) = .ok (.vector v) → 1 < v.length →
      (singleQueryForEnvironment q name nspace backend).1 = .error .tooManyResults) := by
  refine ⟨rfl, rfl, ?_, ?_, ?_⟩
  · intro h
    unfold singleQueryForEnvironment
    simp only [h]
  · intro smp h
    unfold singleQueryForEnvironment
    simp only [h]
  · intro v h hlen
    unfold singleQueryForEnvironment
    simp only [h]
    rcases v with _ | ⟨a, _ | ⟨b, rest⟩⟩
    · simp at hlen
    · simp at hlen
    · rfl

/-- Witness for C6: a backend answering with an empty vector produces the
result-not-found error. -/
theorem c6_single_query_cardinality_witness :
    (fun _ => Except.ok (.vector ([] : List Sample)) : PromRequest → Except PromErr PromResponse)
        (singleQueryRequest sqCx "e" "ns") = .ok (.vector []) ∧
    (singleQueryForEnvironment sqCx "e" "ns"
        (fun _ => .ok (.vector []))).1 = .error .resultNotFound :=
  ⟨rfl, (c6_single_query_cardinality sqCx "e" "ns" (fun _ => .ok (.vector []))).2.2.1 rfl⟩

/-! ## Claim C2 -/

/-- C2. For every environment and status filter, the matching relation
holds iff every filter entry `(c, r)` is satisfied: `r = true` requires
check `c` present and evaluating to true, `r = false` requires `c` absent
or evaluating to false, where "evaluates to" is the value `MatchesStatus`
reads after discarding the probe error (an erroring probe reads as
false). An empty filter matches every environment, and
`GetEnvironmentNamesWithState` returns exactly the names of the matching
entries. The hypothesis excludes nil probe interface values, on which the
Go code would panic (store validation never admits them). -/
theorem c2_status_matching (e : Environment) (F : List (String × Bool)) (s : Store)
    (hnn : ∀ kv ∈ e.statusChecks.getD [], kv.2 ≠ none) :
    (e.matchesStatus F = true ↔ ∀ c r, (c, r) ∈ F →
        (r = true → ∃ pr, lookupA (e.statusChecks.getD []) c = some (some pr) ∧
            pr.goValue = true) ∧
        (r = false → lookupA (e.statusChecks.getD []) c = none ∨
            ∃ pr, lookupA (e.statusChecks.getD []) c = some (some pr) ∧
              pr.goValue = false)) ∧
    e.matchesStatus [] = true ∧
    (∀ n, n ∈ s.getEnvironmentNamesWithState F ↔
        ∃ env2, (n, env2) ∈ s.env ∧ env2.matchesStatus F = true) := by
  refine ⟨?_, rfl, ?_⟩
  · unfold Environment.matchesStatus
    rw [List.all_eq_true]
    constructor
    · intro hall c r hmem
      have h1 := hall (c, r) hmem
      dsimp only at h1
      constructor
      · intro hr
        subst hr
        cases hl : lookupA (e.statusChecks.getD []) c with
        | none =>
            rw [hl] at h1
            simp at h1
        | some p =>
            rw [hl] at h1
            have hp := hnn (c, p) (lookupA_mem _ _ _ hl)
            rcases p with _ | pr
            · exact absurd rfl hp
            · exact ⟨pr, rfl, by simpa [probeGoValue] using h1⟩
      · intro hr
        subst hr
        cases hl : lookupA (e.statusChecks.getD []) c with
        | none => exact Or.inl rfl
        | some p =>
            rw [hl] at h1
            have hp := hnn (c, p) (lookupA_mem _ _ _ hl)
            rcases p with _ | pr
            · exact absurd rfl hp
            · exact Or.inr ⟨pr, rfl, by simpa [probeGoValue] using h1⟩
    · intro hspec x hmem
      rcases x with ⟨c, r⟩
      have h2 := hspec c r hmem
      dsimp only
      cases hl : lookupA (e.statusChecks.getD []) c with
      | none =>
          cases r
          · simp
          · rcases h2.1 rfl with ⟨pr, hpr, _⟩
            rw [hl] at hpr
            cases hpr
      | some p =>
          cases r
          · rcases h2.2 rfl with h | ⟨pr, hpr, hval⟩
            · rw [hl] at h
              cases h
            · rw [hl] at hpr
              injection hpr with hpp
              subst hpp
              simp [probeGoValue, hval]
          · rcases h2.1 rfl with ⟨pr, hpr, hval⟩
            rw [hl] at hpr
            injection hpr with hpp
            subst hpp
            simp [probeGoValue, hval]
  · intro n
    unfold Store.getEnvironmentNamesWithState
    rw [List.Perm.mem_iff (List.perm_insertionSort _ _)]
    constructor
    · intro hn
      rcases List.mem_map.1 hn with ⟨⟨n2, env2⟩, hmem, hfst⟩
      rcases List.mem_filter.1 hmem with ⟨hmem2, hmatch⟩
      dsimp only at hfst
      subst hfst
      exact ⟨env2, hmem2, by simpa using hmatch⟩
    · rintro ⟨env2, hmem, hmatch⟩
      exact List.mem_map.2 ⟨(n, env2), List.mem_filter.2 ⟨hmem, by simpa using hmatch⟩, rfl⟩

/-- Witness for C2: the concrete environment matching the filter
requiring `healthy = true` exhibits the present, true-valued probe. -/
theorem c2_status_matching_witness :
    ∃ pr, lookupA (e2cx.statusChecks.getD []) "healthy" = some (some pr) ∧ pr.goValue = true :=
  ((c2_status_matching e2cx [("healthy", true)] s2cx (by decide)).1.mp (by decide)
    "healthy" true (by decide)).1 rfl

/-! ## Claim C3 -/

/-- C3 (amended). When a store entry is destroyed — by `delete(name)` or
by `add(env)` overwriting an entry of the same name — `Destroy` is called
on exactly the non-nil status-check probes the entry owns (the trace
extends by `statusProbeIds`); metadata probes are never destroyed (the
`MetadataProbe` interface has no `Destroy` method). `delete(name)` on a
store without that name returns not-found and leaves the store
unchanged. -/
theorem c3_destroy_on_deletion (s : Store) (nm : String) (env old : Environment) :
    (lookupA s.env nm = some env →
      (s.deleteEnvironment nm).1.destroyed = s.destroyed ++ statusProbeIds env ∧
      (s.deleteEnvironment nm).1.env = removeA s.env nm ∧
      (s.deleteEnvironment nm).2 = none) ∧
    (lookupA s.env nm = none → s.deleteEnvironment nm = (s, some .environmentNotFound)) ∧
    (lookupA s.env env.name = some old → env.isValid = [] →
      (s.addEnvironment env).1.destroyed = s.destroyed ++ statusProbeIds old ∧
      (s.addEnvironment env).2 = none) := by
  refine ⟨?_, ?_, ?_⟩
  · intro h
    simp only [Store.deleteEnvironment, h]
    exact ⟨trivial, trivial, trivial⟩
  · intro h
    simp only [Store.deleteEnvironment, h]
  · intro hold hval
    have hdel : s.deleteEnvironment env.name =
        ({ env := removeA s.env env.name, destroyed := s.destroyed ++ statusProbeIds old },
         none) := by
      simp only [Store.deleteEnvironment, hold]
    simp [Store.addEnvironment, hval, hold, hdel]

/-- Counterexample for C3 as stated: deleting the entry destroys its
status-check probe (id 3) but not the metadata probe (id 7) it owns, so
`Destroy` is not called on every probe of the entry. -/
theorem c3_destroy_on_deletion_counterexample :
    (s3cx.deleteEnvironment "e").2 = none ∧
    3 ∈ (s3cx.deleteEnvironment "e").1.destroyed ∧
    mpCx.pid = 7 ∧
    lookupA (e3cx.metaProbes.getD []) "owner" = some (some mpCx) ∧
    ¬ 7 ∈ (s3cx.deleteEnvironment "e").1.destroyed := by
  decide

/-- Witness for C3: deleting the concrete entry destroys exactly its
status-check probes and removes it. -/
theorem c3_destroy_on_deletion_witness :
    (s3cx.deleteEnvironment "e").1.destroyed = s3cx.destroyed ++ statusProbeIds e3cx ∧
    (s3cx.deleteEnvironment "e").1.env = removeA s3cx.env "e" ∧
    (s3cx.deleteEnvironment "e").2 = none :=
  (c3_destroy_on_deletion s3cx "e" e3cx e3cx).1 (by decide)

/-! ## Claim C1 -/

theorem insertA_ne_nil {α : Type _} (l : List (String × α)) (k : String) (v : α) :
    insertA l k v ≠ [] := by
  simp [insertA]

theorem ite_insertA_ne {α : Type _} (c : Prop) [Decidable c] (l : List (String × α))
    (k : String) (v : α) (h : l ≠ []) : (if c then insertA l k v else l) ≠ [] := by
  split_ifs
  · exact insertA_ne_nil _ _ _
  · exact h

theorem checkURLMap_pres (acc : List (String × String)) (m : Option (List (String × String)))
    (h : acc ≠ []) : checkURLMap acc m ≠ [] := by
  cases m with
  | none => exact insertA_ne_nil _ _ _
  | some l =>
      dsimp [checkURLMap]
      induction l generalizing acc with
      | nil => simpa using h
      | cons kv rest ih =>
          simp only [List.foldl_cons]
          apply ih
          dsimp only
          split_ifs <;> first | exact insertA_ne_nil _ _ _ | exact h

theorem checkProbeMap_pres {β : Type _} (acc : List (String × String))
    (m : Option (List (String × Option β))) (nilKey keyKey valKey : String)
    (h : acc ≠ []) : checkProbeMap acc m nilKey keyKey valKey ≠ [] := by
  cases m with
  | none => exact insertA_ne_nil _ _ _
  | some l =>
      dsimp [checkProbeMap]
      induction l generalizing acc with
      | nil => simpa using h
      | cons kv rest ih =>
          simp only [List.foldl_cons]
          apply ih
          dsimp only
          split_ifs <;> first | exact insertA_ne_nil _ _ _ | exact h

/-- A validated environment has a non-empty name, namespace and creation
time and non-nil maps. -/
theorem Environment.isValid_shape (e : Environment) (h : e.isValid = []) :
    e.name ≠ "" ∧ e.createdAt ≠ 0 ∧ e.nspace ≠ "" ∧
    e.url ≠ none ∧ e.statusChecks ≠ none ∧ e.metaProbes ≠ none := by
  refine ⟨?_, ?_, ?_, ?_, ?_, ?_⟩ <;> intro hbad <;> refine absurd h ?_ <;>
    simp only [Environment.isValid, hbad, if_pos rfl, Option.isNone_none, reduceIte]
  · exact checkProbeMap_pres _ _ _ _ _ (checkProbeMap_pres _ _ _ _ _ (checkURLMap_pres _ _
      (ite_insertA_ne _ _ _ _ (ite_insertA_ne _ _ _ _ (insertA_ne_nil _ _ _)))))
  · exact checkProbeMap_pres _ _ _ _ _ (checkProbeMap_pres _ _ _ _ _ (checkURLMap_pres _ _
      (ite_insertA_ne _ _ _ _ (insertA_ne_nil _ _ _))))
  · exact checkProbeMap_pres _ _ _ _ _ (checkProbeMap_pres _ _ _ _ _ (checkURLMap_pres _ _
      (insertA_ne_nil _ _ _)))
  · exact checkProbeMap_pres _ _ _ _ _ (checkProbeMap_pres _ _ _ _ _ (insertA_ne_nil _ _ _))
  · exact checkProbeMap_pres _ _ _ _ _ (insertA_ne_nil _ _ _)
  · exact insertA_ne_nil _ _ _

/-- On a fully-populated (valid) update payload the merge degenerates to
the payload itself. -/
theorem mergeSpec_of_valid (cur env : Environment) (h : env.isValid = []) :
    mergeSpec cur env = env := by
  obtain ⟨hn, hc, hns, hu, hs, hm⟩ := Environment.isValid_shape env h
  rcases env with ⟨n, ns, ca, u, sc, mp⟩
  dsimp only at hn hc hns hu hs hm
  rcases u with _ | u
  · exact absurd rfl hu
  rcases sc with _ | sc
  · exact absurd rfl hs
  rcases mp with _ | mp
  · exact absurd rfl hm
  simp [mergeSpec, hn, hns, hc]

/-- A successful in-place update means no provided immutable field
differed, and the result is the merge of the claim. -/
theorem updateEnvironment_ok (cur env e2 : Environment)
    (h : cur.updateEnvironment env = .ok e2) :
    (env.name = "" ∨ env.name = cur.name) ∧ e2 = mergeSpec cur env := by
  unfold Environment.updateEnvironment at h
  split_ifs at h with h1 h2 h3
  cases h
  have hnn : env.name = "" ∨ env.name = cur.name := by
    rcases not_and_or.mp h1 with hx | hx
    · exact Or.inl (not_not.mp hx)
    · exact Or.inr (not_not.mp hx)
  have hss : env.nspace = "" ∨ env.nspace = cur.nspace := by
    rcases not_and_or.mp h2 with hx | hx
    · exact Or.inl (not_not.mp hx)
    · exact Or.inr (not_not.mp hx)
  have hcc : env.createdAt = 0 ∨ env.createdAt = cur.createdAt := by
    rcases not_and_or.mp h3 with hx | hx
    · exact Or.inl (not_not.mp hx)
    · exact Or.inr (not_not.mp hx)
  have f1 : (if env.name = "" then cur.name else env.name) = cur.name := by
    rcases hnn with hx | hx
    · simp [hx]
    · by_cases hz : env.name = "" <;> simp [hz, hx]
  have f2 : (if env.nspace = "" then cur.nspace else env.nspace) = cur.nspace := by
    rcases hss with hx | hx
    · simp [hx]
    · by_cases hz : env.nspace = "" <;> simp [hz, hx]
  have f3 : (if env.createdAt = 0 then cur.createdAt else env.createdAt) = cur.createdAt := by
    rcases hcc with hx | hx
    · simp [hx]
    · by_cases hz : env.createdAt = 0 <;> simp [hz, hx]
  refine ⟨hnn, ?_⟩
  unfold mergeSpec
  rw [f1, f2, f3]

/-- `Environment.UpdateEnvironment` only ever fails with the
immutable-field error. -/
theorem updateEnvironment_error (cur env : Environment) (err : StoreErr)
    (h : cur.updateEnvironment env = .error err) : err = .immutableFieldChanged := by
  unfold Environment.updateEnvironment at h
  split_ifs at h <;> (injection h with h2; exact h2.symm)

/-- A successful `addEnvironment` validated its input and the resulting
map is the old one with the entry stored under its name. -/
theorem addEnvironment_ok (s : Store) (env : Environment)
    (h : (s.addEnvironment env).2 = none) :
    env.isValid = [] ∧
    ∀ k, lookupA (s.addEnvironment env).1.env k =
      if k = env.name then some env else lookupA s.env k := by
  have hv0 : env.isValid = [] := by
    cases hL : env.isValid with
    | nil => rfl
    | cons a t =>
        simp only [Store.addEnvironment, hL] at h
        simp at h
  have hnv : ¬ (env.isValid.length > 0) := by
    rw [hv0]
    decide
  refine ⟨hv0, ?_⟩
  intro k
  cases hx : lookupA s.env env.name with
  | some old =>
      have hdel : s.deleteEnvironment env.name =
          ({ env := removeA s.env env.name, destroyed := s.destroyed ++ statusProbeIds old },
           none) := by
        simp only [Store.deleteEnvironment, hx]
      simp only [Store.addEnvironment, if_neg hnv, hx, hdel]
      by_cases hk : k = env.name
      · subst hk
        rw [lookupA_insertA_self, if_pos rfl]
      · rw [lookupA_insertA_ne _ _ _ _ hk, lookupA_removeA_ne _ _ _ hk, if_neg hk]
  | none =>
      simp only [Store.addEnvironment, if_neg hnv, hx]
      by_cases hk : k = env.name
      · subst hk
        rw [lookupA_insertA_self, if_pos rfl]
      · rw [lookupA_insertA_ne _ _ _ _ hk, if_neg hk]

/-- C1 (amended). For every successful `update(old, env)` with a
non-empty `env.name` on a store containing an entry named `old`:
afterward either (a) `env.name = old` and `get(old)` returns the entry
merged from the old entry and `env`'s non-empty fields, or (b)
`env.name ≠ old` (an immutable field differs), `get(old)` is not-found,
and `get(env.name)` returns exactly `env`; and when no entry named `old`
exists, `update` falls back to `add(env)`. -/
theorem c1_update_semantics (s : Store) (old : String) (env cur : Environment) :
    (lookupA s.env old = none → s.updateEnvironment old env = s.addEnvironment env) ∧
    (lookupA s.env old = some cur → cur.name = old → env.name ≠ "" →
      (s.updateEnvironment old env).2 = none →
      ((env.name = old ∧
          (s.updateEnvironment old env).1.getEnvironment old = .ok (mergeSpec cur env)) ∨
       (env.name ≠ old ∧
          (s.updateEnvironment old env).1.getEnvironment old = .error .environmentNotFound ∧
          (s.updateEnvironment old env).1.getEnvironment env.name = .ok env))) := by
  constructor
  · intro h
    simp only [Store.updateEnvironment, h]
  · intro hcur hname henv hsucc
    cases hup : cur.updateEnvironment env with
    | ok e2 =>
        obtain ⟨hdisj, he2⟩ := updateEnvironment_ok cur env e2 hup
        have hn : env.name = cur.name := hdisj.resolve_left henv
        have hno : env.name = old := hname ▸ hn
        left
        refine ⟨hno, ?_⟩
        have hres : s.updateEnvironment old env =
            ({ s with env := insertA s.env env.name e2 }, none) := by
          simp only [Store.updateEnvironment, hcur, hup]
        rw [hres]
        simp only [Store.getEnvironment]
        rw [← hno, lookupA_insertA_self, he2]
    | error err =>
        have herr := updateEnvironment_error cur env err hup
        subst herr
        have hdel : s.deleteEnvironment old =
            ({ env := removeA s.env old, destroyed := s.destroyed ++ statusProbeIds cur },
             none) := by
          simp only [Store.deleteEnvironment, hcur]
        have hres : s.updateEnvironment old env =
            Store.addEnvironment
              { env := removeA s.env old, destroyed := s.destroyed ++ statusProbeIds cur }
              env := by
          simp only [Store.updateEnvironment, hcur, hup, hdel]
        rw [hres] at hsucc ⊢
        obtain ⟨hval, hlook⟩ := addEnvironment_ok _ env hsucc
        by_cases hno : env.name = old
        · left
          refine ⟨hno, ?_⟩
          have h1 := hlook old
          rw [if_pos hno.symm] at h1
          simp only [Store.getEnvironment, h1, mergeSpec_of_valid cur env hval]
        · right
          refine ⟨hno, ?_, ?_⟩
          · have h1 := hlook old
            rw [if_neg (fun hh => hno hh.symm)] at h1
            dsimp only at h1
            rw [lookupA_removeA_self] at h1
            simp only [Store.getEnvironment, h1]
          · have h2 := hlook env.name
            rw [if_pos rfl] at h2
            simp only [Store.getEnvironment, h2]

/-- Counterexample for C1 as stated: updating entry `e` with a payload
whose name is empty succeeds, yet afterwards neither disjunct of the
claim holds — `get("e")` still returns the old, unmerged entry (the
merged copy was stored under the key `""`). -/
theorem c1_update_semantics_counterexample :
    (s0cx.updateEnvironment "e" envBlankCx).2 = none ∧
    lookupA s0cx.env "e" = some e0cx ∧ e0cx.name = "e" ∧
    ¬ (envBlankCx.name = "e" ∧
        (s0cx.updateEnvironment "e" envBlankCx).1.getEnvironment "e" =
          .ok (mergeSpec e0cx envBlankCx)) ∧
    ¬ ((s0cx.updateEnvironment "e" envBlankCx).1.getEnvironment "e" =
          .error .environmentNotFound ∧
        (s0cx.updateEnvironment "e" envBlankCx).1.getEnvironment envBlankCx.name =
          .ok envBlankCx) := by
  decide

/-- Witness for C1: an in-place update of `e` changing only the URL map
lands in disjunct (a). -/
theorem c1_update_semantics_witness :
    (envWcx.name = "e" ∧
      (s0cx.updateEnvironment "e" envWcx).1.getEnvironment "e" = .ok (mergeSpec e0cx envWcx)) ∨
    (envWcx.name ≠ "e" ∧
      (s0cx.updateEnvironment "e" envWcx).1.getEnvironment "e" = .error .environmentNotFound ∧
      (s0cx.updateEnvironment "e" envWcx).1.getEnvironment envWcx.name = .ok envWcx) :=
  (c1_update_semantics s0cx "e" envWcx e0cx).2 (by decide) (by decide) (by decide) (by decide)

end EphemeralEnvs
